import Mathlib

/-!
Verification of the TLV framing codec (`ch04-sending-tcp-data/types.go`)
and the heartbeat `Pinger` loop (`ch03-tcp-conn-go-stdlib/ping.go`).

The codec is embedded shallowly: byte streams are `List Nat` (each entry a
byte value), a sink (`io.Writer`) is a response function giving, for the
k-th `Write` call and the offered chunk, how many bytes it accepted and
whether the call returned without error, and a source (`io.Reader`) is an
in-memory byte sequence read like `bytes.Reader` reads it.  The `Pinger`
loop is embedded as a small-step transition system over an explicit
configuration (interval, timer state, pending reset slot, cancellation
flag), one step per selected `select` case or environment action.
-/

namespace Ch04

/-- `BinaryType uint8 = iota + 1` from types.go. -/
def BinaryType : Nat := 1

/-- `StringType` from types.go. -/
def StringType : Nat := 2

/-- `MaxPayloadSize uint32 = 10 << 20` from types.go. -/
def MaxPayloadSize : Nat := 10 * 2 ^ 20

/-- Big-endian 4-byte encoding of `uint32(n)`, as written by
`binary.Write(w, binary.BigEndian, uint32(len(m)))`.  The Go conversion
`uint32(len(m))` truncates to 32 bits; each component below already
depends only on `n % 2^32`. -/
def u32be (n : Nat) : List Nat :=
  [n / 16777216 % 256, n / 65536 % 256, n / 256 % 256, n % 256]

/-- The value of four bytes read big-endian into a `uint32`, as done by
`binary.Read(r, binary.BigEndian, &size)`. -/
def val4 (b0 b1 b2 b3 : Nat) : Nat :=
  ((b0 * 256 + b1) * 256 + b2) * 256 + b3

/-- Result of `Binary.WriteTo`: the returned byte count, whether the call
returned a nil error, and the bytes the sink actually accepted (in order).
A sink accepts a prefix of each offered chunk. -/
structure WriteOut where
  count : Nat
  ok : Bool
  handed : List Nat
deriving Repr, DecidableEq

/-- `Binary.WriteTo` from types.go, over a sink modelled by `resp`:
`resp k chunk = (accepted, ok)` is the outcome of the k-th `Write` call.
Step 1 writes the 1-byte tag via `binary.Write` (which discards the
partial count of `w.Write` and keeps only the error), returning `(0, err)`
on failure; step 2 writes the 4-byte big-endian length the same way,
returning `(1, err)` on failure; step 3 writes the payload with `w.Write`
and returns `(5 + o, err)` where `o` is the accepted byte count. -/
def writeTo (m : List Nat) (resp : Nat → List Nat → Nat × Bool) : WriteOut :=
  let tag := [BinaryType]
  let r0 := resp 0 tag
  if r0.2 = false then
    { count := 0, ok := false, handed := tag.take r0.1 }
  else
    let lenb := u32be m.length
    let r1 := resp 1 lenb
    if r1.2 = false then
      { count := 1, ok := false, handed := tag.take r0.1 ++ lenb.take r1.1 }
    else
      let r2 := resp 2 m
      { count := 5 + r2.1, ok := r2.2,
        handed := tag.take r0.1 ++ lenb.take r1.1 ++ m.take r2.1 }

/-- The `io.Writer` contract: a `Write` call never accepts more bytes than
offered, and a call that returns a nil error accepted the whole chunk. -/
def ValidSink (resp : Nat → List Nat → Nat × Bool) : Prop :=
  ∀ k chunk, (resp k chunk).1 ≤ chunk.length ∧
    ((resp k chunk).2 = true → (resp k chunk).1 = chunk.length)

/-- A sink whose failing `Write` calls accept no bytes at all
(all-or-nothing header writes). -/
def FailAcceptsNothing (resp : Nat → List Nat → Nat × Bool) : Prop :=
  ∀ k chunk, (resp k chunk).2 = false → (resp k chunk).1 = 0

/-- A sink that accepts everything offered to it without error. -/
def accSink : Nat → List Nat → Nat × Bool := fun _ chunk => (chunk.length, true)

/-- A legal `io.Writer` that accepts the 1-byte tag, then accepts only 2 of
the 4 length bytes before failing: `binary.Write` discards that partial
count, so `Binary.WriteTo` under-reports the bytes handed to the sink. -/
def cexSink : Nat → List Nat → Nat × Bool
  | 0, chunk => (chunk.length, true)
  | 1, chunk => (min 2 chunk.length, decide (chunk.length ≤ 2))
  | _, _ => (0, false)

/-- Error outcomes of `Binary.ReadFrom`: no error, an I/O error from the
source, `errors.New("invalid Binary")` (the spec calls it
`InvalidTypeError`), or `ErrMaxPayloadSize` (`ExceedsMaxPayloadError`). -/
inductive ReadErr where
  | noErr
  | ioError
  | invalidBinary
  | maxPayload
deriving Repr, DecidableEq

/-- Result of `Binary.ReadFrom`: the returned byte count, the error, the
final contents of the receiver `*m`, and the unconsumed source bytes. -/
structure ReadOut where
  count : Nat
  err : ReadErr
  payload : List Nat
  rest : List Nat
deriving Repr, DecidableEq

/-- `Binary.ReadFrom` from types.go, over a receiver whose buffer holds `m`
and an in-memory source `src` (read like a `bytes.Reader`).
Step 1 reads 1 byte as the tag (`(0, err)` if the source is empty);
step 2 rejects a tag other than `BinaryType` with `(1, invalid Binary)`;
step 3 reads 4 bytes big-endian as the size (`binary.Read` consumes
whatever remains and returns `(1, err)` when fewer than 4 are available);
step 4 rejects `size > MaxPayloadSize` with `(5, ErrMaxPayloadSize)`
before allocating; step 5 replaces `*m` with a fresh zeroed buffer of
length `size` and performs a single `r.Read(*m)`, which delivers
`min size rest.length` bytes (and errors only when the source is already
exhausted), returning `(5 + o, err)`. -/
def readFrom (m src : List Nat) : ReadOut :=
  match src with
  | [] => { count := 0, err := .ioError, payload := m, rest := [] }
  | typ :: rest1 =>
    if typ ≠ BinaryType then
      { count := 1, err := .invalidBinary, payload := m, rest := rest1 }
    else
      match rest1 with
      | b0 :: b1 :: b2 :: b3 :: rest2 =>
        let size := val4 b0 b1 b2 b3
        if size > MaxPayloadSize then
          { count := 5, err := .maxPayload, payload := m, rest := rest2 }
        else
          let o := min size rest2.length
          { count := 5 + o,
            err := if rest2.length = 0 then .ioError else .noErr,
            payload := rest2.take o ++ List.replicate (size - o) 0,
            rest := rest2.drop o }
      | _ => { count := 1, err := .ioError, payload := m, rest := [] }

/-- Decoding the big-endian length bytes recovers the length. -/
lemma val4_u32be (n : Nat) (h : n < 4294967296) :
    val4 (n / 16777216 % 256) (n / 65536 % 256) (n / 256 % 256) (n % 256) = n := by
  unfold val4
  omega

/-- Encoding to an all-accepting sink emits exactly the 5-byte header
followed by the payload. -/
lemma writeTo_accSink (b : List Nat) :
    writeTo b accSink =
      { count := 5 + b.length, ok := true,
        handed := BinaryType :: (u32be b.length ++ b) } := by
  simp [writeTo, accSink, u32be]

/-- Decoding a source that begins with a well-formed frame of payload `b`
(with `b.length ≤ MaxPayloadSize`) consumes the whole frame and leaves the
receiver holding `b`. -/
lemma readFrom_frame (m0 b : List Nat) (h : b.length ≤ MaxPayloadSize) :
    readFrom m0 (BinaryType :: (u32be b.length ++ b)) =
      { count := 5 + b.length,
        err := if b.length = 0 then .ioError else .noErr,
        payload := b, rest := [] } := by
  have h32 : b.length < 4294967296 := by
    have : MaxPayloadSize < 4294967296 := by norm_num [MaxPayloadSize]
    omega
  have hv := val4_u32be b.length h32
  simp only [u32be, List.cons_append, List.nil_append, readFrom]
  rw [hv]
  simp [Nat.not_lt.mpr h, h]

/-- Claim C1: decoding from a source holding exactly the bytes produced by
encoding `Binary b` (for `b.length ≤ MaxPayloadSize`) leaves the receiver
equal to `b`. -/
theorem binary_roundtrip (b m0 : List Nat) (h : b.length ≤ MaxPayloadSize) :
    (readFrom m0 (writeTo b accSink).handed).payload = b := by
  rw [writeTo_accSink]
  rw [readFrom_frame m0 b h]

theorem binary_roundtrip_witness :
    ([1, 2, 3] : List Nat).length ≤ MaxPayloadSize ∧
    (readFrom [] (writeTo [1, 2, 3] accSink).handed).payload = [1, 2, 3] :=
  ⟨by decide, binary_roundtrip [1, 2, 3] [] (by decide)⟩

/-- Claim C3: a source whose first byte is not the `BinaryType` tag makes
`ReadFrom` return `(1, invalid Binary)` with exactly 1 byte consumed, the
rest of the source untouched and the receiver buffer unchanged. -/
theorem readFrom_bad_tag (m : List Nat) (t : Nat) (r : List Nat)
    (h : t ≠ BinaryType) :
    readFrom m (t :: r) =
      { count := 1, err := .invalidBinary, payload := m, rest := r } := by
  simp [readFrom, h]

theorem readFrom_bad_tag_witness :
    (2 : Nat) ≠ BinaryType ∧
    readFrom [9] (2 :: [7, 7]) =
      { count := 1, err := .invalidBinary, payload := [9], rest := [7, 7] } :=
  ⟨by decide, readFrom_bad_tag [9] 2 [7, 7] (by decide)⟩

/-- Shared helper: the over-size branch of `ReadFrom`.  When the decoded
4-byte length exceeds `MaxPayloadSize`, the function returns
`(5, ErrMaxPayloadSize)` without touching the receiver buffer and without
consuming any payload byte. -/
lemma readFrom_over (m : List Nat) (b0 b1 b2 b3 : Nat) (r2 : List Nat)
    (h : val4 b0 b1 b2 b3 > MaxPayloadSize) :
    readFrom m (BinaryType :: b0 :: b1 :: b2 :: b3 :: r2) =
      { count := 5, err := .maxPayload, payload := m, rest := r2 } := by
  simp [readFrom, h]

/-- Claim C4: a frame whose 4-byte big-endian length field exceeds
`MaxPayloadSize` makes `ReadFrom` return `(5, ErrMaxPayloadSize)`, with the
receiver buffer unchanged (no allocation took place) and no payload byte
read from the source. -/
theorem readFrom_exceeds_max (m : List Nat) (b0 b1 b2 b3 : Nat) (r2 : List Nat)
    (h : val4 b0 b1 b2 b3 > MaxPayloadSize) :
    readFrom m (BinaryType :: b0 :: b1 :: b2 :: b3 :: r2) =
      { count := 5, err := .maxPayload, payload := m, rest := r2 } :=
  readFrom_over m b0 b1 b2 b3 r2 h

theorem readFrom_exceeds_max_witness :
    val4 255 255 255 255 > MaxPayloadSize ∧
    readFrom [3] (BinaryType :: 255 :: 255 :: 255 :: 255 :: [8]) =
      { count := 5, err := .maxPayload, payload := [3], rest := [8] } :=
  ⟨by decide, readFrom_exceeds_max [3] 255 255 255 255 [8] (by decide)⟩

/-- Claim C9: `WriteTo` performs no payload-size check.  For any `b` with
`MaxPayloadSize < b.length < 2^32`, encoding to an all-accepting sink
succeeds with count `5 + b.length` and emits a header declaring length
`b.length`, and decoding that very frame fails with `(5,
ErrMaxPayloadSize)`, the receiver left unchanged: the ceiling is enforced
only on the decode side, so the round-trip fails for such `b`. -/
theorem writeTo_unchecked_size (b m0 : List Nat)
    (h1 : MaxPayloadSize < b.length) (h2 : b.length < 4294967296) :
    (writeTo b accSink).ok = true ∧
    (writeTo b accSink).count = 5 + b.length ∧
    (writeTo b accSink).handed = BinaryType :: (u32be b.length ++ b) ∧
    readFrom m0 (writeTo b accSink).handed =
      { count := 5, err := .maxPayload, payload := m0, rest := b } := by
  rw [writeTo_accSink]
  refine ⟨rfl, rfl, rfl, ?_⟩
  have hv := val4_u32be b.length h2
  have : readFrom m0 (BinaryType :: (u32be b.length ++ b)) =
      { count := 5, err := .maxPayload, payload := m0, rest := b } := by
    simp only [u32be, List.cons_append, List.nil_append]
    exact readFrom_over m0 _ _ _ _ b (by rw [hv]; exact h1)
  exact this

theorem writeTo_unchecked_size_witness :
    MaxPayloadSize < (List.replicate 10485761 (0 : Nat)).length ∧
    readFrom [] (writeTo (List.replicate 10485761 (0 : Nat)) accSink).handed =
      { count := 5, err := .maxPayload, payload := [],
        rest := List.replicate 10485761 (0 : Nat) } := by
  have h1 : MaxPayloadSize < (List.replicate 10485761 (0 : Nat)).length := by
    rw [List.length_replicate]
    norm_num [MaxPayloadSize]
  have h2 : (List.replicate 10485761 (0 : Nat)).length < 4294967296 := by
    rw [List.length_replicate]
    norm_num
  exact ⟨h1, (writeTo_unchecked_size (List.replicate 10485761 0) [] h1 h2).2.2.2⟩

/-- Claim C10: whenever `ReadFrom` fails before the payload-read step
(empty source, tag mismatch, short length field — all of which return
count ≤ 1 — or an over-limit length, which returns the `maxPayload`
error), the receiver buffer is left exactly as it was; once all header
checks pass, the buffer is replaced by a fresh one of exactly the declared
length, holding the bytes delivered by the single payload read padded with
zeros, independent of the old contents. -/
theorem readFrom_buffer_policy (m src : List Nat) :
    ((readFrom m src).count ≤ 1 ∨ (readFrom m src).err = .maxPayload →
      (readFrom m src).payload = m) ∧
    (∀ b0 b1 b2 b3 r2, src = BinaryType :: b0 :: b1 :: b2 :: b3 :: r2 →
      val4 b0 b1 b2 b3 ≤ MaxPayloadSize →
      (readFrom m src).payload =
        r2.take (val4 b0 b1 b2 b3) ++
          List.replicate (val4 b0 b1 b2 b3 - min (val4 b0 b1 b2 b3) r2.length) 0 ∧
      (readFrom m src).payload.length = val4 b0 b1 b2 b3) := by
  constructor
  · intro hcase
    match src with
    | [] => simp [readFrom]
    | typ :: rest1 =>
      by_cases ht : typ = BinaryType
      · subst ht
        match rest1 with
        | [] => simp [readFrom, BinaryType]
        | [b0] => simp [readFrom, BinaryType]
        | [b0, b1] => simp [readFrom, BinaryType]
        | [b0, b1, b2] => simp [readFrom, BinaryType]
        | b0 :: b1 :: b2 :: b3 :: rest2 =>
          by_cases hs : val4 b0 b1 b2 b3 > MaxPayloadSize
          · simp [readFrom, hs]
          · exfalso
            by_cases hz : rest2 = []
            · simp [readFrom, hs, hz] at hcase
            · simp [readFrom, hs, hz] at hcase
              omega
      · simp [readFrom, ht]
  · intro b0 b1 b2 b3 r2 hsrc hle
    subst hsrc
    have hnot : ¬ val4 b0 b1 b2 b3 > MaxPayloadSize := Nat.not_lt.mpr hle
    constructor
    · simp [readFrom, hnot]
    · simp only [readFrom, BinaryType]
      simp [hnot, List.length_take, List.length_replicate]

theorem readFrom_buffer_policy_witness :
    (readFrom [9] [2, 0]).payload = [9] ∧
    (readFrom [9] (BinaryType :: 0 :: 0 :: 0 :: 2 :: [7])).payload.length = 2 := by
  constructor
  · exact (readFrom_buffer_policy [9] [2, 0]).1 (Or.inl (by decide))
  · exact ((readFrom_buffer_policy [9] (BinaryType :: 0 :: 0 :: 0 :: 2 :: [7])).2
      0 0 0 2 [7] rfl (by decide)).2

/-- Claim C2, counterexample: `cexSink` is a legal `io.Writer` (never
accepts more than offered; nil error only on full acceptance), yet on
payload `[7]` it accepts the tag byte and 2 of the 4 length bytes — 3
bytes in total — while `WriteTo` returns count 1, because `binary.Write`
discards the partial count of the failed length write.  So the returned
count does not always equal the number of bytes handed to the sink. -/
theorem writeTo_count_cex :
    ValidSink cexSink ∧
    (writeTo [7] cexSink).count = 1 ∧
    (writeTo [7] cexSink).handed.length = 3 ∧
    (writeTo [7] cexSink).count ≠ (writeTo [7] cexSink).handed.length := by
  refine ⟨?_, by decide, by decide, by decide⟩
  intro k chunk
  match k with
  | 0 => simp [cexSink]
  | 1 =>
    refine ⟨Nat.min_le_right 2 chunk.length, ?_⟩
    intro h
    have hle : chunk.length ≤ 2 := of_decide_eq_true h
    exact Nat.min_eq_right hle
  | (n + 2) => simp [cexSink]

/-- Claim C2, amended: provided every failing `Write` call hands no bytes
to the sink (all-or-nothing header writes — the raw payload write may
still be partial), the count returned by `WriteTo` equals exactly the
number of bytes the sink accepted; moreover, for every sink whatsoever,
the count is `0` with an error when the tag write fails, `1` with an
error when the length write fails, and `5` plus the accepted payload
bytes (with the payload write's error) otherwise. -/
theorem writeTo_count_amended (m : List Nat)
    (resp : Nat → List Nat → Nat × Bool) :
    (ValidSink resp → FailAcceptsNothing resp →
      (writeTo m resp).count = (writeTo m resp).handed.length) ∧
    ((resp 0 [BinaryType]).2 = false →
      (writeTo m resp).count = 0 ∧ (writeTo m resp).ok = false) ∧
    ((resp 0 [BinaryType]).2 = true → (resp 1 (u32be m.length)).2 = false →
      (writeTo m resp).count = 1 ∧ (writeTo m resp).ok = false) ∧
    ((resp 0 [BinaryType]).2 = true → (resp 1 (u32be m.length)).2 = true →
      (writeTo m resp).count = 5 + (resp 2 m).1 ∧
      (writeTo m resp).ok = (resp 2 m).2) := by
  refine ⟨?_, ?_, ?_, ?_⟩
  · intro hv hf
    by_cases h0 : (resp 0 [BinaryType]).2 = false
    · have ha0 : (resp 0 [BinaryType]).1 = 0 := hf 0 [BinaryType] h0
      simp [writeTo, h0, ha0]
    · have ht : (resp 0 [BinaryType]).2 = true := by
        cases hb : (resp 0 [BinaryType]).2
        · exact absurd hb h0
        · rfl
      have ha0 : (resp 0 [BinaryType]).1 = 1 := (hv 0 [BinaryType]).2 ht
      by_cases h1 : (resp 1 (u32be m.length)).2 = false
      · have ha1 : (resp 1 (u32be m.length)).1 = 0 := hf 1 (u32be m.length) h1
        simp [writeTo, ht, h1, ha0, ha1]
      · have ht1 : (resp 1 (u32be m.length)).2 = true := by
          cases hb : (resp 1 (u32be m.length)).2
          · exact absurd hb h1
          · rfl
        have ha1 : (resp 1 (u32be m.length)).1 = (u32be m.length).length :=
          (hv 1 (u32be m.length)).2 ht1
        have ha2 : (resp 2 m).1 ≤ m.length := (hv 2 m).1
        have hlen4 : (u32be m.length).length = 4 := by simp [u32be]
        simp [writeTo, ht, ht1, ha0, ha1, hlen4, List.length_take]
        omega
  · intro h0
    simp [writeTo, h0]
  · intro ht h1
    simp [writeTo, ht, h1]
  · intro ht ht1
    simp [writeTo, ht, ht1]

theorem writeTo_count_amended_witness :
    (writeTo [7] accSink).count = (writeTo [7] accSink).handed.length ∧
    (writeTo [7] cexSink).count = 1 ∧ (writeTo [7] cexSink).ok = false := by
  have hv : ValidSink accSink := by
    intro k chunk
    simp [accSink]
  have hf : FailAcceptsNothing accSink := by
    intro k chunk h
    simp [accSink] at h
  refine ⟨(writeTo_count_amended [7] accSink).1 hv hf, ?_⟩
  exact (writeTo_count_amended [7] cexSink).2.2.1 (by decide) (by decide)

end Ch04

namespace Ch03

/-- `defaultPingInterval = 30 * time.Second` from ping.go, in nanoseconds
(`time.Duration` is a signed 64-bit count of nanoseconds). -/
def defaultPingInterval : Int := 30 * 1000000000

/-- State of the `time.Timer` owned by the `Pinger` loop: counting down
after a `Reset`, expired with its fire sitting undelivered in `timer.C`,
or stopped/drained (resource released). -/
inductive TimerSt where
  | counting (d : Int)
  | fired
  | stopped
deriving Repr, DecidableEq

/-- Whether the `Pinger` function is still inside its loop or has
returned. -/
inductive Phase where
  | running
  | closed
deriving Repr, DecidableEq

/-- Configuration of the `Pinger` loop together with its environment: the
current `interval` variable, the loop phase, the timer, the single-slot
reset handoff (`reset` channel), whether the context has been cancelled,
the number of successful probe writes, and the number of attempted probe
writes (successful ones plus a final failing one). -/
structure PingerCfg where
  interval : Int
  phase : Phase
  timer : TimerSt
  pendingReset : Option Int
  cancelRequested : Bool
  pings : Nat
  attempts : Nat
deriving Repr, DecidableEq

/-- Events of the `Pinger` transition system.  `elapse`, `sendReset` and
`requestCancel` are environment actions (time passing, the caller putting
a value into the reset handoff, cancelling the context); `selCancel`,
`selReset` and `selFire` are the three cases of the loop's `select`
statement, each taken only when its channel is ready.  `selFire` carries
whether the `w.Write([]byte("ping"))` call succeeds. -/
inductive PEvent where
  | elapse
  | sendReset (d : Int)
  | requestCancel
  | selCancel
  | selReset
  | selFire (writeOk : Bool)

/-- One step of the `Pinger` loop from ping.go.  A step whose guard is not
met (the selected channel is not ready) leaves the configuration
unchanged, and a closed configuration is absorbing (the function has
returned).
`selCancel` models `case <-ctx.Done(): return` followed by the deferred
stop-and-drain of the timer.
`selReset` models `case newInterval := <-reset:` — `timer.Stop()` plus a
drain of any pending fire (that fire is discarded and never produces a
probe), adoption of the new interval only when it is positive, and the
`timer.Reset(interval)` at the bottom of the loop.
`selFire` models `case <-timer.C:` — the probe write; on success the loop
bottom rearms the timer for the current interval, on failure the function
returns and the deferred cleanup releases the timer. -/
def pstep (c : PingerCfg) (e : PEvent) : PingerCfg :=
  match c.phase with
  | .closed => c
  | .running =>
    match e with
    | .elapse =>
      match c.timer with
      | .counting _ => { c with timer := .fired }
      | _ => c
    | .sendReset d =>
      match c.pendingReset with
      | none => { c with pendingReset := some d }
      | some _ => c
    | .requestCancel => { c with cancelRequested := true }
    | .selCancel =>
      if c.cancelRequested then
        { c with phase := .closed, timer := .stopped }
      else c
    | .selReset =>
      match c.pendingReset with
      | some d =>
        let i := if d > 0 then d else c.interval
        { c with interval := i, pendingReset := none, timer := .counting i }
      | none => c
    | .selFire writeOk =>
      match c.timer with
      | .fired =>
        if writeOk then
          { c with timer := .counting c.interval,
                   pings := c.pings + 1, attempts := c.attempts + 1 }
        else
          { c with phase := .closed, timer := .stopped,
                   attempts := c.attempts + 1 }
      | _ => c

/-- Run the `Pinger` transition system over a list of events. -/
def prun (c : PingerCfg) : List PEvent → PingerCfg
  | [] => c
  | e :: es => prun (pstep c e) es

/-- The startup of `Pinger` (steps 1–3 of ping.go): a non-blocking pull of
an initial interval from the reset handoff (`r = none` models the
`default:` branch), fallback to `defaultPingInterval` when the pulled
value is not positive, and the initial `time.NewTimer(interval)`. -/
def pingerStart (r : Option Int) : PingerCfg :=
  let i0 : Int := match r with | some v => v | none => 0
  let i := if i0 ≤ 0 then defaultPingInterval else i0
  { interval := i, phase := .running, timer := .counting i,
    pendingReset := none, cancelRequested := false, pings := 0, attempts := 0 }

/-- A closed configuration takes no further steps. -/
lemma pstep_closed (c : PingerCfg) (e : PEvent) (h : c.phase = .closed) :
    pstep c e = c := by
  unfold pstep
  rw [h]

/-- A closed configuration is unchanged by any sequence of events. -/
lemma prun_closed (c : PingerCfg) (evs : List PEvent) (h : c.phase = .closed) :
    prun c evs = c := by
  induction evs with
  | nil => rfl
  | cons e es ih =>
    simp only [prun, pstep_closed c e h]
    exact ih

/-- Claim C5: if the probe write fails while the `Pinger` is armed (a fire
was delivered and the write returned an error), the loop terminates at
once: the configuration is closed, the timer resource is released, the
failing write is not retried (exactly one more attempt is recorded and no
successful probe), and no sequence of later events produces any further
write attempt. -/
theorem pinger_write_failure_terminates (c : PingerCfg) (evs : List PEvent)
    (hrun : c.phase = .running) (hfired : c.timer = .fired) :
    (pstep c (.selFire false)).phase = .closed ∧
    (pstep c (.selFire false)).timer = .stopped ∧
    (pstep c (.selFire false)).pings = c.pings ∧
    (pstep c (.selFire false)).attempts = c.attempts + 1 ∧
    prun (pstep c (.selFire false)) evs = pstep c (.selFire false) := by
  have hstep : pstep c (.selFire false) =
      { c with phase := .closed, timer := .stopped,
               attempts := c.attempts + 1 } := by
    unfold pstep
    rw [hrun, hfired]
    rfl
  rw [hstep]
  exact ⟨rfl, rfl, rfl, rfl, prun_closed _ evs rfl⟩

theorem pinger_write_failure_terminates_witness :
    (pstep (pingerStart (some 5)) .elapse).phase = .running ∧
    (pstep (pingerStart (some 5)) .elapse).timer = .fired ∧
    (pstep (pstep (pingerStart (some 5)) .elapse) (.selFire false)).phase
      = .closed ∧
    prun (pstep (pstep (pingerStart (some 5)) .elapse) (.selFire false))
        [.elapse, .sendReset 9, .selFire true]
      = pstep (pstep (pingerStart (some 5)) .elapse) (.selFire false) := by
  refine ⟨by decide, by decide, ?_, ?_⟩
  · exact (pinger_write_failure_terminates _ [] (by decide) (by decide)).1
  · exact (pinger_write_failure_terminates _ [.elapse, .sendReset 9, .selFire true]
      (by decide) (by decide)).2.2.2.2

/-- Claim C6: receiving a non-positive value from the reset handoff leaves
the current interval unchanged and rearms the timer for that full
interval (discarding any pending fire), so in this model no probe can be
produced before a whole interval elapses after the reset. -/
theorem pinger_reset_nonpositive (c : PingerCfg) (d : Int)
    (hrun : c.phase = .running) (hres : c.pendingReset = some d)
    (hd : d ≤ 0) :
    (pstep c .selReset).interval = c.interval ∧
    (pstep c .selReset).timer = .counting c.interval ∧
    (pstep c .selReset).pendingReset = none ∧
    (pstep c .selReset).pings = c.pings := by
  have hdneg : ¬ d > 0 := by omega
  have hstep : pstep c .selReset =
      { c with interval := c.interval, pendingReset := none,
               timer := .counting c.interval } := by
    unfold pstep
    rw [hrun, hres]
    simp [hdneg]
  rw [hstep]
  exact ⟨rfl, rfl, rfl, rfl⟩

theorem pinger_reset_nonpositive_witness :
    (pstep (pstep (pingerStart (some 5)) (.sendReset 0)) .selReset).interval = 5 ∧
    (pstep (pstep (pingerStart (some 5)) (.sendReset 0)) .selReset).timer
      = .counting 5 := by
  have h := pinger_reset_nonpositive (pstep (pingerStart (some 5)) (.sendReset 0))
    0 (by decide) (by decide) (by decide)
  exact ⟨h.1, h.2.1⟩

/-- Claim C7, counterexample: from a started `Pinger` with interval 5,
after the timer fires and a reset carrying 7 is placed in the handoff, the
fire case of the `select` is ready and may be chosen (Go chooses randomly
among ready cases): taking it writes a probe while the reset is still
pending and the superseded interval 5 is still current.  The race is
therefore not resolved deterministically in favour of the reset. -/
theorem pinger_race_cex :
    (prun (pingerStart (some 5)) [.elapse, .sendReset 7]).timer = .fired ∧
    (prun (pingerStart (some 5)) [.elapse, .sendReset 7]).pendingReset = some 7 ∧
    (prun (pingerStart (some 5)) [.elapse, .sendReset 7]).interval = 5 ∧
    (pstep (prun (pingerStart (some 5)) [.elapse, .sendReset 7])
        (.selFire true)).pings
      = (prun (pingerStart (some 5)) [.elapse, .sendReset 7]).pings + 1 ∧
    (pstep (prun (pingerStart (some 5)) [.elapse, .sendReset 7])
        (.selFire true)).pendingReset = some 7 ∧
    (pstep (prun (pingerStart (some 5)) [.elapse, .sendReset 7])
        (.selFire true)).interval = 5 := by
  decide

/-- Claim C7, amended: when the reset case of the `select` is the one
taken, any fire pending in the same iteration is drained and discarded
before the new interval is adopted — the step writes no probe, empties the
handoff, and leaves the timer counting a full adopted interval.
Determinism between a ready reset and a ready fire is not guaranteed. -/
theorem pinger_reset_drains_fire (c : PingerCfg) (d : Int)
    (hrun : c.phase = .running) (hres : c.pendingReset = some d) :
    (pstep c .selReset).pings = c.pings ∧
    (pstep c .selReset).attempts = c.attempts ∧
    (pstep c .selReset).pendingReset = none ∧
    (pstep c .selReset).timer = .counting (if d > 0 then d else c.interval) ∧
    (pstep c .selReset).interval = (if d > 0 then d else c.interval) := by
  have hstep : pstep c .selReset =
      { c with interval := if d > 0 then d else c.interval,
               pendingReset := none,
               timer := .counting (if d > 0 then d else c.interval) } := by
    unfold pstep
    rw [hrun, hres]
  rw [hstep]
  exact ⟨rfl, rfl, rfl, rfl, rfl⟩

theorem pinger_reset_drains_fire_witness :
    (pstep (prun (pingerStart (some 5)) [.elapse, .sendReset 7]) .selReset).pings
      = (prun (pingerStart (some 5)) [.elapse, .sendReset 7]).pings ∧
    (pstep (prun (pingerStart (some 5)) [.elapse, .sendReset 7]) .selReset).timer
      = .counting 7 := by
  have h := pinger_reset_drains_fire
    (prun (pingerStart (some 5)) [.elapse, .sendReset 7]) 7
    (by decide) (by decide)
  exact ⟨h.1, by rw [h.2.2.2.1]; decide⟩

end Ch03
